import Mathlib

/-!
Verification of the E2E-encryption core of the `messaging` repository
(`packages/core/src/encryption/e2e.ts`, `packages/core/src/services/messaging.ts`).

Byte strings are modelled as `List Nat`.  The TweetNaCl primitives
(`nacl.box`, `nacl.secretbox`) and WebCrypto PBKDF2 are third-party library
code, not part of this repository; they are modelled as idealized
authenticated encryption: a sealed box records the key, the nonce and the
message injectively, and opening checks the key and nonce and recovers the
message.  Everything layered on top of the primitives (wire layouts,
slicing offsets, envelope selection, service control flow) is translated
from the repository source.  Random values the source draws with
`nacl.randomBytes` (message nonces, backup salt and nonce) and the freshly
generated key pair of `setupEncryption` are explicit arguments of the
corresponding model functions.
-/

namespace Messaging

/-- Byte strings (`Uint8Array` in the source). -/
abbrev Bytes := List Nat

/-- Injective packing of a byte string into a single natural number. -/
def packList : Bytes → Nat
  | [] => 0
  | x :: xs => Nat.pair x (packList xs) + 1

/-- Inverse of `packList`. -/
def unpackList : Nat → Bytes
  | 0 => []
  | n + 1 => (Nat.unpair n).1 :: unpackList (Nat.unpair n).2
decreasing_by exact Nat.lt_succ_of_le (Nat.unpair_right_le n)

/-!
## Idealized primitives (`nacl.secretbox`, `nacl.box`, PBKDF2)

External library primitives, modelled as perfect AEAD.  The repository
never inspects the inside of a ciphertext, only concatenates and slices
around it, so a ciphertext is a one-element byte string carrying an
injective encoding of (key, nonce, message).  The X25519 model keeps the
one algebraic fact the repository relies on: the Diffie–Hellman shared
secret is symmetric, `sharedKey (pkOfSecret a) b = sharedKey (pkOfSecret b) a`.
-/

/-- Idealized `nacl.secretbox`: seal `msg` under `key` and `nonce`. -/
def secretboxSeal (key nonce msg : Bytes) : Bytes :=
  [Nat.pair (packList key) (Nat.pair (packList nonce) (packList msg))]

/-- Idealized `nacl.secretbox.open`: succeeds exactly when the sealed key and
nonce match, returning the sealed message. -/
def secretboxOpen (key nonce c : Bytes) : Option Bytes :=
  match c with
  | [t] =>
    if (Nat.unpair t).1 = packList key ∧ (Nat.unpair (Nat.unpair t).2).1 = packList nonce then
      some (unpackList (Nat.unpair (Nat.unpair t).2).2)
    else
      none
  | _ => none

/-- Public key derived from a secret key (`nacl.box.keyPair.fromSecretKey`).
The tag byte makes the derivation injective and distinct from the secret. -/
def pkOfSecret (sk : Bytes) : Bytes := 0 :: sk

/-- Idealized Diffie–Hellman shared secret of a peer public key and an own
secret key. -/
def sharedKey (pk sk : Bytes) : Bytes :=
  [(packList (pk.drop 1) + 1) * (packList sk + 1)]

/-- Idealized `nacl.box`: authenticated public-key encryption for the holder
of the secret key matching `theirPk`. -/
def boxSeal (msg nonce theirPk mySk : Bytes) : Bytes :=
  secretboxSeal (sharedKey theirPk mySk) nonce msg

/-- Idealized `nacl.box.open`. -/
def boxOpen (c nonce theirPk mySk : Bytes) : Option Bytes :=
  secretboxOpen (sharedKey theirPk mySk) nonce c

/-- Modelled WebCrypto PBKDF2-HMAC-SHA-256 (100,000 iterations, 32-byte
output) of `TweetNaClEncryption.deriveKeyFromPin`: an arbitrary but fixed
deterministic function of (pin, salt). -/
def deriveKeyFromPin (pin : String) (salt : Bytes) : Bytes :=
  [Nat.pair (packList (pin.data.map Char.toNat)) (packList salt)]

/-!
## Wire strings

A persisted message body / key blob is a JavaScript string that is either
ordinary text, the base64 of a byte string, or `JSON.stringify` of a
`{s, r, recipientId}` object.  `ContentStr` is that partition; base64
strings and the JSON serialization of an object are never themselves valid
JSON objects with `s` and `r` fields, which is what makes the partition
faithful.
-/

/-- Wire strings. `plain` is ordinary text (e.g. user plaintext used as a
message body with encryption off), `b64` is `encodeBase64` of bytes,
`dualJson` is `JSON.stringify({s, r, recipientId})`. -/
inductive ContentStr
  | plain (t : String)
  | b64 (data : Bytes)
  | dualJson (s r : ContentStr) (recipientId : String)
deriving DecidableEq, Repr

/-- `encodeBase64` (tweetnacl-util). -/
def bytesToBase64 (bytes : Bytes) : ContentStr := .b64 bytes

/-- `decodeBase64` (tweetnacl-util); throws on a string that is not base64,
modelled as `none`. -/
def base64ToBytes : ContentStr → Option Bytes
  | .b64 data => some data
  | _ => none

/-- JavaScript string truthiness: only the empty string is falsy.
`b64 []` encodes to the empty string. -/
def ContentStr.truthy : ContentStr → Bool
  | .plain t => t ≠ ""
  | .b64 data => data ≠ []
  | .dualJson _ _ _ => true

/-- `decodeUTF8` (tweetnacl-util): string to bytes. -/
def utf8Encode (s : String) : Bytes := s.data.map Char.toNat

/-- `encodeUTF8` (tweetnacl-util): bytes to string. -/
def utf8Decode (l : Bytes) : String := String.mk (l.map Char.ofNat)

/-!
## `TweetNaClEncryption` (e2e.ts)
-/

/-- `TweetNaClEncryption.encryptMessage`: box the UTF-8 plaintext under a
fresh 24-byte `nonce`, return base64 of `nonce ++ ciphertext`. -/
def encryptMessage (plaintext : String) (recipientPublicKey senderSecretKey : Bytes)
    (nonce : Bytes) : ContentStr :=
  bytesToBase64 (nonce ++ boxSeal (utf8Encode plaintext) nonce recipientPublicKey senderSecretKey)

/-- `TweetNaClEncryption.decryptMessage`: base64-decode, split off the
24-byte nonce, open the box; `none` on any failure. -/
def decryptMessage (ciphertextBase64 : ContentStr)
    (senderPublicKey recipientSecretKey : Bytes) : Option String :=
  match base64ToBytes ciphertextBase64 with
  | none => none
  | some fullMessage =>
    let nonce := fullMessage.take 24
    let ciphertext := fullMessage.drop 24
    (boxOpen ciphertext nonce senderPublicKey recipientSecretKey).map utf8Decode

/-- `TweetNaClEncryption.encryptPrivateKeyWithPin`: derive a key from the
PIN and a fresh 16-byte salt, secretbox the secret key under a fresh
24-byte nonce, return base64 of `salt ++ nonce ++ ciphertext`. -/
def encryptPrivateKeyWithPin (secretKey : Bytes) (pin : String)
    (salt nonce : Bytes) : ContentStr :=
  bytesToBase64 (salt ++ nonce ++ secretboxSeal (deriveKeyFromPin pin salt) nonce secretKey)

/-- `TweetNaClEncryption.decryptPrivateKeyWithPin`: base64-decode, slice
`salt = [0,16)`, `nonce = [16,40)`, ciphertext = rest, re-derive the key and
open; `none` on any failure. -/
def decryptPrivateKeyWithPin (encryptedBase64 : ContentStr) (pin : String) : Option Bytes :=
  match base64ToBytes encryptedBase64 with
  | none => none
  | some combined =>
    let salt := combined.take 16
    let nonce := (combined.drop 16).take 24
    let encrypted := combined.drop 40
    secretboxOpen (deriveKeyFromPin pin salt) nonce encrypted

/-- `publicKeyFromPrivate` (e2e.ts utility). -/
def publicKeyFromPrivate (privateKey : Bytes) : Bytes := pkOfSecret privateKey

/-!
## Dual-envelope codec (e2e.ts utilities)
-/

/-- `EncryptedContent` (types.ts): dual-encrypted message for storage. -/
structure EncryptedContent where
  s : ContentStr
  r : ContentStr
  recipientId : String
deriving DecidableEq, Repr

/-- `JSON.stringify` of an `EncryptedContent` object (as done in
`MessagingService.sendMessage`). -/
def stringifyEncryptedContent (e : EncryptedContent) : ContentStr :=
  .dualJson e.s e.r e.recipientId

/-- `createEncryptedContent`: encrypt the plaintext once for the recipient
(field `r`) and once for the sender (field `s`), with independent nonces. -/
def createEncryptedContent (plaintext : String)
    (senderSecretKey senderPublicKey recipientPublicKey : Bytes)
    (recipientId : String) (nonceR nonceS : Bytes) : EncryptedContent :=
  let forRecipient := encryptMessage plaintext recipientPublicKey senderSecretKey nonceR
  let forSender := encryptMessage plaintext senderPublicKey senderSecretKey nonceS
  { s := forSender, r := forRecipient, recipientId := recipientId }

/-- `parseEncryptedContent`: `JSON.parse` the string and require truthy `s`
and `r` fields; `none` otherwise (including on any parse failure). -/
def parseEncryptedContent : ContentStr → Option EncryptedContent
  | .dualJson s r recipientId =>
    if s.truthy ∧ r.truthy then some ⟨s, r, recipientId⟩ else none
  | _ => none

/-- `decryptMessageContent`: parse as dual envelope and decrypt the copy
selected by `senderId == currentUserId`; on parse failure fall back to
decrypting the whole string as a legacy single envelope. -/
def decryptMessageContent (content : ContentStr) (senderId currentUserId : String)
    (senderPublicKey currentUserSecretKey : Bytes) : Option String :=
  match parseEncryptedContent content with
  | some encrypted =>
    let isSender := senderId = currentUserId
    let ciphertext := if isSender then encrypted.s else encrypted.r
    decryptMessage ciphertext senderPublicKey currentUserSecretKey
  | none =>
    decryptMessage content senderPublicKey currentUserSecretKey

/-!
## `MessagingService` (services/messaging.ts)

The mutable per-session state of the service is the `MessagingService`
structure; the injected collaborators (the `KeyStorage` and the optional
capability-gated adapter methods) are the read-only `Env`.  Operations
with side effects return, besides their result and updated state, the
list of crypto and collaborator calls they issued, in order.
-/

/-- In-memory key pair (`this.keyPair`). -/
structure KeyPair where
  publicKey : Bytes
  secretKey : Bytes
deriving DecidableEq, Repr

/-- `StoredKeyPair` (key-storage.ts): base64-encoded pair as persisted by
the local `KeyStorage`. -/
structure StoredKeyPair where
  publicKey : ContentStr
  secretKey : ContentStr
deriving DecidableEq, Repr

/-- Result of `adapter.getKeyBackup` (adapter.ts). -/
structure BackupInfo where
  encryptedKey : Option ContentStr
  rateLimited : Bool
deriving DecidableEq, Repr

/-- The collaborators of the service: local `KeyStorage.loadKeyPair` and the
optional (capability-gated) adapter methods.  `getPublicKey` yields the
already-base64-decoded key bytes; write-only capabilities are represented
by their presence flag, since the service never reads their result. -/
structure Env where
  loadKeyPair : String → Option StoredKeyPair
  getKeyBackup : Option (String → BackupInfo)
  getPublicKey : Option (String → Option Bytes)
  hasStorePublicKey : Bool
  hasStoreKeyBackup : Bool
  hasRecordPinAttempt : Bool

/-- Per-session mutable state of `MessagingService`. -/
structure MessagingService where
  e2eEnabled : Bool
  currentUserId : Option String
  keyPair : Option KeyPair
  publicKeyCache : List (String × Bytes)
deriving DecidableEq, Repr

/-- `EncryptionStatus` (types.ts). -/
inductive EncryptionStatus
  | ready
  | needs_setup
  | needs_pin_setup
  | has_backup
  | needs_regeneration
  | error
deriving DecidableEq, Repr

/-- A crypto or collaborator call issued by a service operation. -/
inductive Event
  | generateKeyPair
  | pinEncrypt (pin : String)
  | pinDecrypt (blob : ContentStr) (pin : String)
  | getKeyBackup (userId : String)
  | recordPinAttempt (userId : String) (success : Bool)
  | storePublicKey (userId : String) (publicKey : ContentStr)
  | storeKeyBackup (userId : String) (blob : ContentStr)
  | storeKeyPairLocal (userId : String) (stored : StoredKeyPair)
deriving DecidableEq, Repr

/-- Outcome of `setupEncryption` / `restoreEncryption`: `noUser` is the
`return false` path, `success` the `return true` path, the rest are the
thrown errors in source order. -/
inductive OpOutcome
  | noUser
  | validationError
  | backupUnsupported
  | rateLimited
  | noBackup
  | incorrectPin
  | success
deriving DecidableEq, Repr

/-- The PIN format check `pin.length !== 6 || !/^\d+$/.test(pin)`, stated
positively: exactly six ASCII digits. -/
def isValidPin (pin : String) : Bool :=
  pin.length == 6 && pin.data.all Char.isDigit

/-- `MessagingService.setCurrentUser`. -/
def setCurrentUser (svc : MessagingService) (userId : String) : MessagingService :=
  if svc.currentUserId ≠ some userId then
    { svc with currentUserId := some userId, keyPair := none, publicKeyCache := [] }
  else
    svc

/-- `MessagingService.getEncryptionStatus`. -/
def getEncryptionStatus (env : Env) (svc : MessagingService) : EncryptionStatus :=
  if ¬ svc.e2eEnabled then .ready
  else
    match svc.currentUserId with
    | none => .error
    | some userId =>
      match env.loadKeyPair userId with
      | some _ =>
        match env.getKeyBackup with
        | some getBackup =>
          if (getBackup userId).encryptedKey.isSome then .ready else .needs_pin_setup
        | none => .ready
      | none =>
        if (match env.getKeyBackup with
            | some getBackup => (getBackup userId).encryptedKey.isSome
            | none => false) then
          .has_backup
        else if (match env.getPublicKey with
            | some fetch => (fetch userId).isSome
            | none => false) then
          .needs_regeneration
        else
          .needs_setup

/-- `MessagingService.isEncryptionReady`. -/
def isEncryptionReady (svc : MessagingService) : Bool :=
  !svc.e2eEnabled || svc.keyPair.isSome

/-- `MessagingService.setupEncryption`.  `generated` is the key pair drawn
by `generateKeyPair`; `salt` and `nonce` are the random values drawn inside
`encryptPrivateKeyWithPin`. -/
def setupEncryption (env : Env) (svc : MessagingService) (pin : String)
    (generated : KeyPair) (salt nonce : Bytes) :
    OpOutcome × List Event × MessagingService :=
  match svc.currentUserId with
  | none => (.noUser, [], svc)
  | some userId =>
    if ¬ isValidPin pin then (.validationError, [], svc)
    else
      let publicKeyBase64 := bytesToBase64 generated.publicKey
      let secretKeyBase64 := bytesToBase64 generated.secretKey
      let encryptedBackup := encryptPrivateKeyWithPin generated.secretKey pin salt nonce
      (.success,
       [Event.generateKeyPair, Event.pinEncrypt pin]
         ++ (if env.hasStorePublicKey then [Event.storePublicKey userId publicKeyBase64] else [])
         ++ (if env.hasStoreKeyBackup then [Event.storeKeyBackup userId encryptedBackup] else [])
         ++ [Event.storeKeyPairLocal userId ⟨publicKeyBase64, secretKeyBase64⟩],
       { svc with keyPair := some generated })

/-- `MessagingService.restoreEncryption`. -/
def restoreEncryption (env : Env) (svc : MessagingService) (pin : String) :
    OpOutcome × List Event × MessagingService :=
  match svc.currentUserId with
  | none => (.noUser, [], svc)
  | some userId =>
    if ¬ isValidPin pin then (.validationError, [], svc)
    else
      match env.getKeyBackup with
      | none => (.backupUnsupported, [], svc)
      | some getBackup =>
        let info := getBackup userId
        if info.rateLimited then (.rateLimited, [.getKeyBackup userId], svc)
        else
          match info.encryptedKey with
          | none => (.noBackup, [.getKeyBackup userId], svc)
          | some encryptedKey =>
            match decryptPrivateKeyWithPin encryptedKey pin with
            | none =>
              (.incorrectPin,
               [.getKeyBackup userId, .pinDecrypt encryptedKey pin]
                 ++ (if env.hasRecordPinAttempt then [.recordPinAttempt userId false] else []),
               svc)
            | some secretKey =>
              let publicKey := publicKeyFromPrivate secretKey
              (.success,
               [.getKeyBackup userId, .pinDecrypt encryptedKey pin]
                 ++ (if env.hasRecordPinAttempt then [.recordPinAttempt userId true] else [])
                 ++ [.storeKeyPairLocal userId
                      ⟨bytesToBase64 publicKey, bytesToBase64 secretKey⟩],
               { svc with keyPair := some ⟨publicKey, secretKey⟩ })

/-- `MessagingService.getPublicKey` (private): cache lookup, else fetch from
the adapter and cache a non-null result. -/
def getPublicKeyCached (env : Env) (svc : MessagingService) (userId : String) :
    Option Bytes × MessagingService :=
  match svc.publicKeyCache.lookup userId with
  | some cached => (some cached, svc)
  | none =>
    match env.getPublicKey with
    | some fetch =>
      match fetch userId with
      | some bytes =>
        (some bytes, { svc with publicKeyCache := (userId, bytes) :: svc.publicKeyCache })
      | none => (none, svc)
    | none => (none, svc)

/-- Errors thrown by `MessagingService.sendMessage` before reaching the
adapter. -/
inductive SendError
  | noUser
  | conversationNotFound
  | recipientNotSetUp
deriving DecidableEq, Repr

/-- The content `MessagingService.sendMessage` hands to
`adapter.sendMessage`: the body is dual-encrypted exactly when E2E is
enabled, a key pair is loaded and the conversation has exactly one
participant other than the current user; otherwise the original content
string is passed through.  `conversation` is the participant-id list of
the result of `getConversation` (`none` when not found). -/
def sendMessageContent (env : Env) (svc : MessagingService)
    (conversation : Option (List String)) (content : String)
    (nonceR nonceS : Bytes) : Except SendError ContentStr :=
  match svc.currentUserId with
  | none => .error .noUser
  | some userId =>
    if svc.e2eEnabled then
      match svc.keyPair with
      | some keyPair =>
        match conversation with
        | none => .error .conversationNotFound
        | some participants =>
          match participants.filter (· != userId) with
          | [recipientId] =>
            match (getPublicKeyCached env svc recipientId).1 with
            | none => .error .recipientNotSetUp
            | some recipientPublicKey =>
              .ok (stringifyEncryptedContent (createEncryptedContent content
                keyPair.secretKey keyPair.publicKey recipientPublicKey recipientId
                nonceR nonceS))
          | _ => .ok (.plain content)
      | none => .ok (.plain content)
    else
      .ok (.plain content)

/-!
## Concrete collaborators and states used by counterexamples and witnesses
-/

/-- An adapter with no optional capability at all. -/
def bareEnv : Env where
  loadKeyPair := fun _ => none
  getKeyBackup := none
  getPublicKey := none
  hasStorePublicKey := false
  hasStoreKeyBackup := false
  hasRecordPinAttempt := false

/-- A local store holding a key pair for every user; no adapter capability. -/
def localOnlyEnv : Env :=
  { bareEnv with loadKeyPair := fun _ => some ⟨bytesToBase64 [0, 1], bytesToBase64 [1]⟩ }

/-- Local key present, backup capability present but no stored blob. -/
def localNoBlobEnv : Env :=
  { localOnlyEnv with getKeyBackup := some fun _ => ⟨none, false⟩ }

/-- Local key present, backup capability present with a stored blob. -/
def localWithBlobEnv : Env :=
  { localOnlyEnv with getKeyBackup := some fun _ => ⟨some (.b64 [7]), false⟩ }

/-- No local key, backup blob available remotely. -/
def remoteBlobEnv : Env :=
  { bareEnv with getKeyBackup := some fun _ => ⟨some (.b64 [7]), false⟩ }

/-- No local key, no backup, but a remote public key. -/
def remotePkEnv : Env :=
  { bareEnv with
      getKeyBackup := some fun _ => ⟨none, false⟩
      getPublicKey := some fun _ => some [0, 9] }

/-- Backup capability present and rate-limited. -/
def rateLimitedEnv : Env :=
  { bareEnv with getKeyBackup := some fun _ => ⟨some (.b64 [7]), true⟩ }

/-- Backup capability present with a non-empty (hence truthy) blob that no
PIN decrypts (the single byte `[7]` is not a well-formed
`salt ++ nonce ++ ciphertext` blob: its sliced ciphertext is empty, which
`secretbox.open` rejects), and `recordPinAttempt` supported. -/
def badBlobEnv : Env :=
  { bareEnv with
      getKeyBackup := some fun _ => ⟨some (.b64 [7]), false⟩
      hasRecordPinAttempt := true }

/-- Service state with E2E on and no active user. -/
def svcNoUser : MessagingService where
  e2eEnabled := true
  currentUserId := none
  keyPair := none
  publicKeyCache := []

/-- Service state with E2E on and user `"alice"` active, no loaded keys. -/
def svcAlice : MessagingService :=
  { svcNoUser with currentUserId := some "alice" }

/-- Service state with E2E on, user `"alice"`, a loaded key pair and a
non-empty public-key cache. -/
def svcAliceLoaded : MessagingService :=
  { svcAlice with
      keyPair := some ⟨pkOfSecret [1], [1]⟩
      publicKeyCache := [("bob", pkOfSecret [2])] }

/-!
## Library lemmas about the model
-/

theorem unpackList_packList (l : Bytes) : unpackList (packList l) = l := by
  induction l with
  | nil => simp [packList, unpackList]
  | cons x xs ih =>
    rw [packList, unpackList, Nat.unpair_pair]
    exact congrArg (x :: ·) ih

theorem secretboxOpen_seal (key nonce msg : Bytes) :
    secretboxOpen key nonce (secretboxSeal key nonce msg) = some msg := by
  simp [secretboxSeal, secretboxOpen, Nat.unpair_pair, unpackList_packList]

theorem sharedKey_comm (a b : Bytes) :
    sharedKey (pkOfSecret a) b = sharedKey (pkOfSecret b) a := by
  simp [sharedKey, pkOfSecret, Nat.mul_comm]

theorem utf8Decode_encode (s : String) : utf8Decode (utf8Encode s) = s := by
  cases s with
  | mk data =>
    simp only [utf8Encode, utf8Decode, List.map_map]
    exact congrArg String.mk (by
      induction data with
      | nil => rfl
      | cons c cs ih =>
        simp only [List.map_cons, Function.comp_apply, Char.ofNat_toNat]
        exact congrArg (c :: ·) ih)

/-- Round trip of a single envelope with matching keys. -/
theorem decryptMessage_encryptMessage (p : String) (skS skR nonce : Bytes)
    (h : nonce.length = 24) :
    decryptMessage (encryptMessage p (pkOfSecret skR) skS nonce) (pkOfSecret skS) skR
      = some p := by
  simp only [encryptMessage, decryptMessage, bytesToBase64, base64ToBytes,
    List.take_left' h, List.drop_left' h, boxOpen, boxSeal,
    sharedKey_comm skR skS, secretboxOpen_seal, Option.map_some']
  exact congrArg some (utf8Decode_encode p)

/-- An `encryptMessage` output is a non-empty (truthy) base64 string. -/
theorem encryptMessage_truthy (p : String) (pk sk nonce : Bytes) :
    (encryptMessage p pk sk nonce).truthy = true := by
  simp [encryptMessage, bytesToBase64, ContentStr.truthy, boxSeal, secretboxSeal]

/-- Parsing inverts stringification when both envelope fields are truthy. -/
theorem parseEncryptedContent_stringify (e : EncryptedContent)
    (hs : e.s.truthy = true) (hr : e.r.truthy = true) :
    parseEncryptedContent (stringifyEncryptedContent e) = some e := by
  cases e with
  | mk s r recipientId => simp_all [stringifyEncryptedContent, parseEncryptedContent]

/-!
## Claims
-/

/-- C2.  Dual-envelope round trip: for every plaintext, sender secret key
`skS` and recipient secret key `skR` (with public keys derived from them),
the content built by `createEncryptedContent` (and stringified as in
`sendMessage`) is decoded back to the plaintext by `decryptMessageContent`
both by the sender (`senderId = currentUserId`, using `skS`) and by the
recipient (`senderId ≠ currentUserId`, using `skR`). -/
theorem dual_envelope_round_trip (p : String) (skS skR nonceR nonceS : Bytes)
    (senderId otherUserId recipientId : String)
    (hR : nonceR.length = 24) (hS : nonceS.length = 24)
    (hne : senderId ≠ otherUserId) :
    decryptMessageContent
        (stringifyEncryptedContent (createEncryptedContent p skS (pkOfSecret skS)
          (pkOfSecret skR) recipientId nonceR nonceS))
        senderId senderId (pkOfSecret skS) skS = some p ∧
    decryptMessageContent
        (stringifyEncryptedContent (createEncryptedContent p skS (pkOfSecret skS)
          (pkOfSecret skR) recipientId nonceR nonceS))
        senderId otherUserId (pkOfSecret skS) skR = some p := by
  have hparse := parseEncryptedContent_stringify
    (createEncryptedContent p skS (pkOfSecret skS) (pkOfSecret skR) recipientId nonceR nonceS)
    (encryptMessage_truthy ..) (encryptMessage_truthy ..)
  constructor
  · rw [decryptMessageContent, hparse]
    simp only [createEncryptedContent, if_pos rfl]
    exact decryptMessage_encryptMessage p skS skS nonceS hS
  · rw [decryptMessageContent, hparse]
    simp only [createEncryptedContent, if_neg hne]
    exact decryptMessage_encryptMessage p skS skR nonceR hR

/-- C2 witness: both round trips at a concrete plaintext, key pairs and
nonces. -/
theorem dual_envelope_round_trip_witness :
    decryptMessageContent
        (stringifyEncryptedContent (createEncryptedContent "hello" [1] (pkOfSecret [1])
          (pkOfSecret [2]) "bob" (List.replicate 24 5) (List.replicate 24 6)))
        "alice" "alice" (pkOfSecret [1]) [1] = some "hello" ∧
    decryptMessageContent
        (stringifyEncryptedContent (createEncryptedContent "hello" [1] (pkOfSecret [1])
          (pkOfSecret [2]) "bob" (List.replicate 24 5) (List.replicate 24 6)))
        "alice" "bob" (pkOfSecret [1]) [2] = some "hello" :=
  dual_envelope_round_trip "hello" [1] [2] (List.replicate 24 5) (List.replicate 24 6)
    "alice" "bob" "bob" (List.length_replicate 24 5) (List.length_replicate 24 6)
    (by decide)

/-- C3.  PIN backup round trip: for every 32-byte secret key and valid
six-digit PIN (and the 16-byte salt and 24-byte nonce drawn during
encryption), decrypting the encrypted backup with the same PIN returns
exactly the secret key. -/
theorem pin_backup_round_trip (secretKey : Bytes) (pin : String) (salt nonce : Bytes)
    (hsk : secretKey.length = 32) (hpin : isValidPin pin = true)
    (hsalt : salt.length = 16) (hnonce : nonce.length = 24) :
    decryptPrivateKeyWithPin (encryptPrivateKeyWithPin secretKey pin salt nonce) pin
      = some secretKey := by
  have h40 : (salt ++ nonce).length = 40 := by rw [List.length_append, hsalt, hnonce]
  simp only [encryptPrivateKeyWithPin, decryptPrivateKeyWithPin, bytesToBase64, base64ToBytes,
    List.append_assoc]
  rw [List.take_left' hsalt, List.drop_left' hsalt, List.take_left' hnonce,
    ← List.append_assoc, List.drop_left' h40, secretboxOpen_seal]

/-- C3 witness: round trip at a concrete 32-byte secret key, PIN, salt and
nonce. -/
theorem pin_backup_round_trip_witness :
    decryptPrivateKeyWithPin
        (encryptPrivateKeyWithPin (List.replicate 32 9) "123456"
          (List.replicate 16 1) (List.replicate 24 2)) "123456"
      = some (List.replicate 32 9) :=
  pin_backup_round_trip (List.replicate 32 9) "123456" (List.replicate 16 1)
    (List.replicate 24 2) (List.length_replicate 32 9) (by decide)
    (List.length_replicate 16 1) (List.length_replicate 24 2)

/-- C4.  Legacy fallback: whenever `parseEncryptedContent` fails,
`decryptMessageContent` decrypts the whole string as a single legacy
envelope directly against `senderPublicKey` / `currentUserSecretKey`; in
particular a string produced by single-envelope `encryptMessage` is
decoded by the dual decoder. -/
theorem legacy_fallback :
    (∀ (content : ContentStr) (senderId currentUserId : String)
        (senderPublicKey currentUserSecretKey : Bytes),
      parseEncryptedContent content = none →
      decryptMessageContent content senderId currentUserId
          senderPublicKey currentUserSecretKey
        = decryptMessage content senderPublicKey currentUserSecretKey) ∧
    (∀ (p : String) (skS skR nonce : Bytes) (senderId currentUserId : String),
      nonce.length = 24 →
      decryptMessageContent (encryptMessage p (pkOfSecret skR) skS nonce)
          senderId currentUserId (pkOfSecret skS) skR = some p) := by
  constructor
  · intro content senderId currentUserId spk csk hparse
    rw [decryptMessageContent, hparse]
  · intro p skS skR nonce senderId currentUserId h
    rw [decryptMessageContent]
    exact decryptMessage_encryptMessage p skS skR nonce h

/-- C4 witness: the fallback equation at a concrete non-dual string, and a
concrete legacy envelope decoded by the dual decoder. -/
theorem legacy_fallback_witness :
    decryptMessageContent (.plain "not json") "alice" "bob" [3] [4]
        = decryptMessage (.plain "not json") [3] [4] ∧
    decryptMessageContent (encryptMessage "hi" (pkOfSecret [2]) [1] (List.replicate 24 0))
        "alice" "bob" (pkOfSecret [1]) [2] = some "hi" :=
  ⟨legacy_fallback.1 (.plain "not json") "alice" "bob" [3] [4] rfl,
   legacy_fallback.2 "hi" [1] [2] (List.replicate 24 0) "alice" "bob"
     (List.length_replicate 24 0)⟩

/-- C1 counterexample.  Active user `"alice"`, local store holds a key
pair, adapter has no `getKeyBackup` capability: `getEncryptionStatus`
returns `ready`, not `needs_pin_setup` as the claim states. -/
theorem status_no_capability_counterexample :
    getEncryptionStatus localOnlyEnv svcAlice = .ready ∧
    getEncryptionStatus localOnlyEnv svcAlice ≠ .needs_pin_setup := by
  constructor
  · rfl
  · intro h
    exact EncryptionStatus.noConfusion (h.symm.trans rfl)

/-- C1 amended.  With an active user and a local key pair:
`needs_pin_setup` is returned exactly when the `getKeyBackup` capability is
present and reports no stored blob; when the directory lacks the backup
capability the status is `ready`. -/
theorem status_no_capability (env : Env) (svc : MessagingService)
    (userId : String) (stored : StoredKeyPair)
    (he2e : svc.e2eEnabled = true) (huid : svc.currentUserId = some userId)
    (hlocal : env.loadKeyPair userId = some stored) :
    (env.getKeyBackup = none → getEncryptionStatus env svc = .ready) ∧
    (∀ getBackup, env.getKeyBackup = some getBackup →
      (getBackup userId).encryptedKey = none →
      getEncryptionStatus env svc = .needs_pin_setup) := by
  constructor
  · intro hcap
    simp [getEncryptionStatus, he2e, huid, hlocal, hcap]
  · intro getBackup hcap hnone
    simp [getEncryptionStatus, he2e, huid, hlocal, hcap, hnone]

/-- C1 amended witness: both branches of the amended claim at concrete
collaborators. -/
theorem status_no_capability_witness :
    getEncryptionStatus localOnlyEnv svcAlice = .ready ∧
    getEncryptionStatus localNoBlobEnv svcAlice = .needs_pin_setup :=
  ⟨(status_no_capability localOnlyEnv svcAlice "alice"
      ⟨bytesToBase64 [0, 1], bytesToBase64 [1]⟩ rfl rfl rfl).1 rfl,
   (status_no_capability localNoBlobEnv svcAlice "alice"
      ⟨bytesToBase64 [0, 1], bytesToBase64 [1]⟩ rfl rfl rfl).2
      (fun _ => ⟨none, false⟩) rfl rfl⟩

/-- C5.  The status state table (with E2E enabled): no active user gives
`error`; with an active user, (no local key, no remote backup, no remote
public key) gives `needs_setup`; (local key, remote backup) gives `ready`;
(no local key, remote backup) gives `has_backup`; (no local key, no
backup, remote public key) gives `needs_regeneration`. -/
theorem status_state_table (env : Env) (svc : MessagingService) (userId : String)
    (he2e : svc.e2eEnabled = true) :
    (svc.currentUserId = none → getEncryptionStatus env svc = .error) ∧
    (svc.currentUserId = some userId →
      ((env.loadKeyPair userId = none →
        (∀ g, env.getKeyBackup = some g → (g userId).encryptedKey = none) →
        (∀ g, env.getPublicKey = some g → g userId = none) →
        getEncryptionStatus env svc = .needs_setup) ∧
       (∀ stored g blob, env.loadKeyPair userId = some stored →
        env.getKeyBackup = some g → (g userId).encryptedKey = some blob →
        getEncryptionStatus env svc = .ready) ∧
       (∀ g blob, env.loadKeyPair userId = none →
        env.getKeyBackup = some g → (g userId).encryptedKey = some blob →
        getEncryptionStatus env svc = .has_backup) ∧
       (∀ gp pk, env.loadKeyPair userId = none →
        (∀ g, env.getKeyBackup = some g → (g userId).encryptedKey = none) →
        env.getPublicKey = some gp → gp userId = some pk →
        getEncryptionStatus env svc = .needs_regeneration))) := by
  refine ⟨fun hnone => by simp [getEncryptionStatus, he2e, hnone], fun huid => ⟨?_, ?_, ?_, ?_⟩⟩
  · intro hlocal hnb hnp
    cases hgb : env.getKeyBackup with
    | none =>
      cases hgp : env.getPublicKey with
      | none => simp [getEncryptionStatus, he2e, huid, hlocal, hgb, hgp]
      | some gp => simp [getEncryptionStatus, he2e, huid, hlocal, hgb, hgp, hnp gp hgp]
    | some g =>
      cases hgp : env.getPublicKey with
      | none => simp [getEncryptionStatus, he2e, huid, hlocal, hgb, hgp, hnb g hgb]
      | some gp =>
        simp [getEncryptionStatus, he2e, huid, hlocal, hgb, hgp, hnb g hgb, hnp gp hgp]
  · intro stored g blob hlocal hgb hblob
    simp [getEncryptionStatus, he2e, huid, hlocal, hgb, hblob]
  · intro g blob hlocal hgb hblob
    simp [getEncryptionStatus, he2e, huid, hlocal, hgb, hblob]
  · intro gp pk hlocal hnb hgp hpk
    cases hgb : env.getKeyBackup with
    | none => simp [getEncryptionStatus, he2e, huid, hlocal, hgb, hgp, hpk]
    | some g => simp [getEncryptionStatus, he2e, huid, hlocal, hgb, hgp, hpk, hnb g hgb]

/-- C5 witness: all five rows of the table at concrete collaborators. -/
theorem status_state_table_witness :
    getEncryptionStatus bareEnv svcNoUser = .error ∧
    getEncryptionStatus bareEnv svcAlice = .needs_setup ∧
    getEncryptionStatus localWithBlobEnv svcAlice = .ready ∧
    getEncryptionStatus remoteBlobEnv svcAlice = .has_backup ∧
    getEncryptionStatus remotePkEnv svcAlice = .needs_regeneration := by
  refine ⟨(status_state_table bareEnv svcNoUser "alice" rfl).1 rfl,
    ((status_state_table bareEnv svcAlice "alice" rfl).2 rfl).1 rfl
      (fun g h => by exact absurd h (by simp [bareEnv]))
      (fun g h => by exact absurd h (by simp [bareEnv])),
    ((status_state_table localWithBlobEnv svcAlice "alice" rfl).2 rfl).2.1
      ⟨bytesToBase64 [0, 1], bytesToBase64 [1]⟩ (fun _ => ⟨some (.b64 [7]), false⟩)
      (.b64 [7]) rfl rfl rfl,
    ((status_state_table remoteBlobEnv svcAlice "alice" rfl).2 rfl).2.2.1
      (fun _ => ⟨some (.b64 [7]), false⟩) (.b64 [7]) rfl rfl rfl,
    ((status_state_table remotePkEnv svcAlice "alice" rfl).2 rfl).2.2.2
      (fun _ => some [0, 9]) [0, 9] rfl ?_ rfl rfl⟩
  intro g h
  have : (fun _ : String => BackupInfo.mk none false) = g := by
    simpa [remotePkEnv, bareEnv] using h
  rw [← this]

/-- C6.  Rate-limited restore: with an active user, a valid PIN and a
`getKeyBackup` capability reporting `rateLimited`, `restoreEncryption`
fails with the rate-limit error, and its call trace contains neither a
PIN-decryption attempt nor a `recordPinAttempt` call. -/
theorem rate_limited_restore (env : Env) (svc : MessagingService)
    (userId pin : String) (getBackup : String → BackupInfo)
    (huid : svc.currentUserId = some userId) (hpin : isValidPin pin = true)
    (hcap : env.getKeyBackup = some getBackup)
    (hrl : (getBackup userId).rateLimited = true) :
    restoreEncryption env svc pin = (.rateLimited, [.getKeyBackup userId], svc) ∧
    ∀ e ∈ (restoreEncryption env svc pin).2.1,
      (∀ blob p, e ≠ .pinDecrypt blob p) ∧ (∀ u s, e ≠ .recordPinAttempt u s) := by
  have h1 : restoreEncryption env svc pin = (.rateLimited, [.getKeyBackup userId], svc) := by
    simp [restoreEncryption, huid, hpin, hcap, hrl]
  refine ⟨h1, ?_⟩
  rw [h1]
  intro e he
  rw [List.mem_singleton] at he
  subst he
  exact ⟨fun blob p => by simp, fun u s => by simp⟩

/-- C6 witness: the rate-limited outcome and event trace at a concrete
rate-limiting directory. -/
theorem rate_limited_restore_witness :
    restoreEncryption rateLimitedEnv svcAlice "123456"
      = (.rateLimited, [.getKeyBackup "alice"], svcAlice) :=
  (rate_limited_restore rateLimitedEnv svcAlice "alice" "123456"
    (fun _ => ⟨some (.b64 [7]), true⟩) rfl rfl rfl rfl).1

/-- C7.  Incorrect-PIN reporting: when the fetched backup blob exists, is
not rate limited, PIN decryption fails and the directory supports
`recordPinAttempt`, the restore reports a failed attempt
(`recordPinAttempt userId false`) before returning the incorrect-PIN
error, and both the in-memory key pair and the local key store are left
untouched (the state is unchanged and no local store write appears in the
trace). -/
theorem incorrect_pin_reported (env : Env) (svc : MessagingService)
    (userId pin : String) (getBackup : String → BackupInfo) (blob : ContentStr)
    (huid : svc.currentUserId = some userId) (hpin : isValidPin pin = true)
    (hcap : env.getKeyBackup = some getBackup)
    (hrl : (getBackup userId).rateLimited = false)
    (hblob : (getBackup userId).encryptedKey = some blob)
    (hfail : decryptPrivateKeyWithPin blob pin = none)
    (hrec : env.hasRecordPinAttempt = true) :
    restoreEncryption env svc pin
      = (.incorrectPin,
         [.getKeyBackup userId, .pinDecrypt blob pin, .recordPinAttempt userId false],
         svc) ∧
    (restoreEncryption env svc pin).2.2.keyPair = svc.keyPair ∧
    ∀ stored, Event.storeKeyPairLocal userId stored ∉ (restoreEncryption env svc pin).2.1 := by
  have h1 : restoreEncryption env svc pin
      = (.incorrectPin,
         [.getKeyBackup userId, .pinDecrypt blob pin, .recordPinAttempt userId false],
         svc) := by
    simp [restoreEncryption, huid, hpin, hcap, hrl, hblob, hfail, hrec]
  refine ⟨h1, by rw [h1], ?_⟩
  rw [h1]
  intro stored hmem
  simp at hmem

/-- C7 witness: the incorrect-PIN outcome, trace and unchanged state at a
concrete directory holding an undecryptable blob. -/
theorem incorrect_pin_reported_witness :
    restoreEncryption badBlobEnv svcAlice "123456"
      = (.incorrectPin,
         [.getKeyBackup "alice", .pinDecrypt (.b64 [7]) "123456",
          .recordPinAttempt "alice" false],
         svcAlice) :=
  (incorrect_pin_reported badBlobEnv svcAlice "alice" "123456"
    (fun _ => ⟨some (.b64 [7]), false⟩) (.b64 [7]) rfl rfl rfl rfl rfl rfl rfl).1

/-- C8.  PIN validation: with an active user, any PIN that is not exactly
six ASCII digits is rejected with the validation error by both
`setupEncryption` and `restoreEncryption` with an empty call trace (no
crypto or collaborator call), while `"000000"` passes format validation
and the concrete inputs `"12345"`, `"abcdef"`, `"1234567"` fail it. -/
theorem pin_validation (env : Env) (svc : MessagingService) (userId pin : String)
    (huid : svc.currentUserId = some userId) (hpin : isValidPin pin = false) :
    (∀ generated salt nonce,
      setupEncryption env svc pin generated salt nonce = (.validationError, [], svc)) ∧
    restoreEncryption env svc pin = (.validationError, [], svc) ∧
    isValidPin "000000" = true ∧
    isValidPin "12345" = false ∧
    isValidPin "abcdef" = false ∧
    isValidPin "1234567" = false := by
  refine ⟨fun generated salt nonce => ?_, ?_, by decide, by decide, by decide, by decide⟩
  · simp [setupEncryption, huid, hpin]
  · simp [restoreEncryption, huid, hpin]

/-- C8 witness: `"12345"` rejected by both operations at a concrete state,
with the closed validity facts. -/
theorem pin_validation_witness :
    setupEncryption bareEnv svcAlice "12345" ⟨[0, 1], [1]⟩ [] []
        = (.validationError, [], svcAlice) ∧
    restoreEncryption bareEnv svcAlice "12345" = (.validationError, [], svcAlice) ∧
    isValidPin "000000" = true := by
  have h := pin_validation bareEnv svcAlice "alice" "12345" rfl (by decide)
  exact ⟨h.1 ⟨[0, 1], [1]⟩ [] [], h.2.1, h.2.2.1⟩

/-- C9.  Switching the active user clears key material: from a state with
a loaded key pair and a non-empty public-key cache, `setCurrentUser` with
a different user id leaves no key pair loaded and an empty cache, and an
immediate readiness check behaves as if no key were loaded. -/
theorem user_switch_clears_keys (svc : MessagingService) (keyPair : KeyPair)
    (oldId newId : String)
    (hkp : svc.keyPair = some keyPair) (hcache : svc.publicKeyCache ≠ [])
    (hcur : svc.currentUserId = some oldId) (hne : oldId ≠ newId) :
    (setCurrentUser svc newId).keyPair = none ∧
    (setCurrentUser svc newId).publicKeyCache = [] ∧
    (svc.e2eEnabled = true → isEncryptionReady (setCurrentUser svc newId) = false) := by
  have hcond : svc.currentUserId ≠ some newId := by
    rw [hcur]
    exact fun h => hne (Option.some.inj h)
  refine ⟨?_, ?_, fun he2e => ?_⟩
  · simp [setCurrentUser, hcond]
  · simp [setCurrentUser, hcond]
  · simp [setCurrentUser, hcond, isEncryptionReady, he2e]

/-- C9 witness: the switch from `"alice"` (with loaded keys and a cached
peer key) to `"bob"` at a concrete state. -/
theorem user_switch_clears_keys_witness :
    (setCurrentUser svcAliceLoaded "bob").keyPair = none ∧
    (setCurrentUser svcAliceLoaded "bob").publicKeyCache = [] ∧
    isEncryptionReady (setCurrentUser svcAliceLoaded "bob") = false := by
  have h := user_switch_clears_keys svcAliceLoaded ⟨pkOfSecret [1], [1]⟩ "alice" "bob"
    rfl (by simp [svcAliceLoaded, svcAlice, svcNoUser]) rfl (by decide)
  exact ⟨h.1, h.2.1, h.2.2 rfl⟩

/-- C10.  Group conversations bypass encryption: with E2E enabled, a key
pair loaded and the conversation found, a participant list with a number
of non-current-user participants different from one passes the original
content through unencrypted; exactly one other participant (whose public
key resolves) yields the dual-encrypted body. -/
theorem group_bypass (env : Env) (svc : MessagingService) (userId : String)
    (keyPair : KeyPair) (participants : List String) (content : String)
    (nonceR nonceS : Bytes)
    (huid : svc.currentUserId = some userId) (he2e : svc.e2eEnabled = true)
    (hkp : svc.keyPair = some keyPair) :
    ((participants.filter (· != userId)).length ≠ 1 →
      sendMessageContent env svc (some participants) content nonceR nonceS
        = .ok (.plain content)) ∧
    (∀ recipientId recipientPublicKey,
      participants.filter (· != userId) = [recipientId] →
      (getPublicKeyCached env svc recipientId).1 = some recipientPublicKey →
      sendMessageContent env svc (some participants) content nonceR nonceS
        = .ok (stringifyEncryptedContent (createEncryptedContent content
            keyPair.secretKey keyPair.publicKey recipientPublicKey recipientId
            nonceR nonceS))) := by
  constructor
  · intro hlen
    rcases hf : participants.filter (· != userId) with _ | ⟨a, _ | ⟨b, t⟩⟩
    · simp [sendMessageContent, huid, he2e, hkp, hf]
    · exact absurd (by rw [hf]; rfl) hlen
    · simp [sendMessageContent, huid, he2e, hkp, hf]
  · intro recipientId recipientPublicKey hf hpk
    simp [sendMessageContent, huid, he2e, hkp, hf, hpk]

/-- C10 witness: a three-party conversation passes plaintext through; a
two-party conversation produces the dual envelope. -/
theorem group_bypass_witness :
    sendMessageContent bareEnv svcAliceLoaded (some ["alice", "bob", "carol"]) "hi"
        (List.replicate 24 3) (List.replicate 24 4) = .ok (.plain "hi") ∧
    sendMessageContent bareEnv svcAliceLoaded (some ["alice", "bob"]) "hi"
        (List.replicate 24 3) (List.replicate 24 4)
      = .ok (stringifyEncryptedContent (createEncryptedContent "hi"
          [1] (pkOfSecret [1]) (pkOfSecret [2]) "bob"
          (List.replicate 24 3) (List.replicate 24 4))) :=
  ⟨(group_bypass bareEnv svcAliceLoaded "alice" ⟨pkOfSecret [1], [1]⟩
      ["alice", "bob", "carol"] "hi" (List.replicate 24 3) (List.replicate 24 4)
      rfl rfl rfl).1 (by decide),
   (group_bypass bareEnv svcAliceLoaded "alice" ⟨pkOfSecret [1], [1]⟩
      ["alice", "bob"] "hi" (List.replicate 24 3) (List.replicate 24 4)
      rfl rfl rfl).2 "bob" (pkOfSecret [2]) (by decide) rfl⟩

end Messaging
